import Mathlib

/-!
Shallow embedding of `api/search.js` (ml-search-mvp): the criteria
extractor (`heuristicParse`, the OpenAI fallback logic of the handler),
the result enrichment (`free_shipping` defaulting, seller block), the
scoring loop (price normalisation, shipping and seller sub-scores,
composite rounded score), the descending stable sort, and the
`repregunta` follow-up question.

Modelling conventions:
* JS numbers are embedded as `ℚ`; an item price of `0` encodes every
  JS-falsy price (`0`, `null`, `undefined`), matching `r.price || 0`.
* The ambient clock is made explicit: `new Date().getFullYear()` becomes
  a `currentYear : ℤ` parameter, and the ISO date
  `new Date(Date.now() + 7*24*3600*1000).toISOString().split('T')[0]`
  becomes an `isoPlus7 : String` parameter of `heuristicParse`.
* `seller.registration_date` is embedded by the year that
  `new Date(d).getFullYear()` extracts from it (`Option ℤ`, `none` when
  the seller lookup failed or carried no date).
* The awaited outcome of `parsePromptWithOpenAI` (which throws on a
  failed fetch, a non-2xx status, or malformed JSON in the reply) is
  abstracted as an `Except String Criteria` input to `extract`.
* `Math.round x` is `⌊x + 1/2⌋` (JS rounds halves towards +∞).
-/

namespace MLSearch

/-- The four `priority_weights` fields of a parsed criteria object. -/
structure PriorityWeights where
  price : ℚ
  delivery_time : ℚ
  reviews : ℚ
  seller_reputation : ℚ
deriving Repr, DecidableEq

/-- Structured criteria extracted from a prompt (the JSON shape that both
`parsePromptWithOpenAI` and `heuristicParse` produce). -/
structure Criteria where
  keywords : Option String
  category : Option String
  must_have : List String
  nice_to_have : List String
  avoid : List String
  budget_min : Option Int
  budget_max : Option Int
  latest_delivery_date : Option String
  condition_preference : Option String
  priority_weights : PriorityWeights
  extra_instructions : String
deriving Repr, DecidableEq

/-- JS truthiness of a nullable string variable: `null` and the empty
string are falsy, every other string is truthy. -/
def optTruthy : Option String → Bool
  | none => false
  | some s => !(s == "")

/-- JS `String.prototype.toLowerCase` on one character (ASCII range; the
prompts and keyword needles the parser compares are ASCII lower-case). -/
def jsLowerChar (c : Char) : Char :=
  if 'A' ≤ c && c ≤ 'Z' then Char.ofNat (c.toNat + 32) else c

/-- JS `prompt.toLowerCase()`. -/
def jsLowerStr (s : String) : String :=
  String.mk (s.toList.map jsLowerChar)

/-- JS `String.prototype.trim`: strip leading and trailing whitespace. -/
def jsTrim (s : String) : String :=
  String.mk (((s.toList.dropWhile Char.isWhitespace).reverse.dropWhile
    Char.isWhitespace).reverse)

/-- JS `hay.includes(needle)`: substring containment on character lists. -/
def listIncludes (needle : List Char) : List Char → Bool
  | [] => needle.isEmpty
  | c :: rest => needle.isPrefixOf (c :: rest) || listIncludes needle rest

/-- JS `hay.includes(needle)` on strings. -/
def strIncludes (hay needle : String) : Bool :=
  listIncludes needle.toList hay.toList

/-- The category keyword list of `heuristicParse`, in source order. -/
def categories : List String :=
  ["auricular", "auriculares", "celular", "notebook", "zapatilla",
   "zapatillas", "monitor", "televisor", "tv"]

/-- The `for (const c of categories) if (p.includes(c)) break` loop:
first listed category occurring in the lowercased prompt. -/
def firstCategory (p : String) : Option String :=
  categories.find? (fun c => strIncludes p c)

/-- Characters matched by the regex class `\s` (ASCII part). -/
def isJsSpace (c : Char) : Bool :=
  c == ' ' || c == '\t' || c == '\n' || c == '\r' || c == '\x0b' || c == '\x0c'

/-- Numeric value of a list of decimal digit characters (the effect of
`parseInt` on the digits captured by the budget regex). -/
def digitsToNat (ds : List Char) : Nat :=
  ds.foldl (fun n c => 10 * n + (c.toNat - '0'.toNat)) 0

/-- Attempt of the budget regex `\$?\s?([0-9]{2,6})(usd|...)?` anchored at
the current position: an optional `$`, an optional whitespace character,
then greedily two to six digits (the optional currency word never affects
the capture). -/
def budgetMatchAt (cs : List Char) : Option Nat :=
  let cs1 := match cs with
    | '$' :: r => r
    | _ => cs
  let cs2 := match cs1 with
    | c :: r => if isJsSpace c then r else cs1
    | [] => cs1
  let ds := (cs2.takeWhile Char.isDigit).take 6
  if 2 ≤ ds.length then some (digitsToNat ds) else none

/-- Leftmost match of the budget regex over the prompt (JS `String.match`
scans positions left to right). -/
def findBudget : List Char → Option Nat
  | [] => none
  | c :: rest =>
    match budgetMatchAt (c :: rest) with
    | some n => some n
    | none => findBudget rest

/-- The alternatives of the keywords regex
`auricular|auriculares|celular|notebook|monitor|zapatilla|zapatillas|televisor|tv`,
in source order (note: ordered differently from `categories`). -/
def keywordAlternatives : List String :=
  ["auricular", "auriculares", "celular", "notebook", "monitor",
   "zapatilla", "zapatillas", "televisor", "tv"]

/-- First alternative (in regex order) matching at the current position. -/
def altMatchAt (cs : List Char) : Option String :=
  keywordAlternatives.find? (fun a => a.toList.isPrefixOf cs)

/-- Leftmost match of the keywords regex: earliest position wins, and at a
given position the first alternative in regex order wins. -/
def findKeywordMatch : List Char → Option String
  | [] => none
  | c :: rest =>
    match altMatchAt (c :: rest) with
    | some s => some s
    | none => findKeywordMatch rest

/-- The local, credential-free criteria extractor `heuristicParse`.
`isoPlus7` stands for the ISO date string `today + 7 days` that the
source computes from the ambient clock. -/
def heuristicParse (isoPlus7 : String) (prompt : String) : Criteria :=
  let p := jsLowerStr prompt
  let category := firstCategory p
  let budget_max := (findBudget p.toList).map (Int.ofNat)
  let latest_delivery_date :=
    if strIncludes p "semana" || strIncludes p "una semana" ||
       strIncludes p "dentro de una semana"
    then some isoPlus7 else none
  let keywords :=
    (category.getD "") ++ " " ++ ((findKeywordMatch p.toList).getD "")
  let priority_weights : PriorityWeights :=
    { price :=
        if strIncludes p "barato" || strIncludes p "lo mas barato"
        then (0.7 : ℚ) else 0.4
      delivery_time :=
        if strIncludes p "rápido" || strIncludes p "entrega rápida" ||
           optTruthy latest_delivery_date
        then (0.3 : ℚ) else 0.15
      reviews :=
        if strIncludes p "reseñas" || strIncludes p "opiniones"
        then (0.25 : ℚ) else 0.1
      seller_reputation := 0.05 }
  { keywords := if jsTrim keywords == "" then none else some (jsTrim keywords)
    category := category
    must_have := []
    nice_to_have := []
    avoid := []
    budget_min := none
    budget_max := budget_max
    latest_delivery_date := latest_delivery_date
    condition_preference := none
    priority_weights := priority_weights
    extra_instructions := prompt }

/-- Criteria extraction as the handler performs it: when
`process.env.OPENAI_API_KEY` is configured it awaits
`parsePromptWithOpenAI` (whose outcome — parsed criteria, or a thrown
error from the fetch, a non-2xx status, or malformed JSON — is the
`openaiOutcome` argument) and on any thrown error falls back to
`heuristicParse`; without the credential it calls `heuristicParse`
directly. -/
def extract (openaiKeyConfigured : Bool) (openaiOutcome : Except String Criteria)
    (isoPlus7 : String) (prompt : String) : Criteria :=
  if openaiKeyConfigured then
    match openaiOutcome with
    | Except.ok c => c
    | Except.error _ => heuristicParse isoPlus7 prompt
  else heuristicParse isoPlus7 prompt

/-- The `shipping` block of a raw marketplace item; its `free_shipping`
flag may be absent (`none`). -/
structure RawShipping where
  free_shipping : Option Bool
deriving Repr, DecidableEq

/-- The fields of a raw marketplace search result that enrichment and
scoring read: the price (`0` encodes a JS-falsy price), the optional
shipping block, and the optional seller id reference. -/
structure RawItem where
  price : ℚ
  shipping : Option RawShipping
  sellerId : Option Int
deriving Repr, DecidableEq

/-- Seller detail fetched from the marketplace users endpoint;
`registration_year` is the year `new Date(registration_date)` yields,
`none` when the payload carries no registration date. -/
structure SellerInfo where
  id : Int
  registration_year : Option Int
deriving Repr, DecidableEq

/-- The `seller` block of an enriched result: full info when the lookup
succeeded, otherwise only the raw item's seller id (or null). -/
structure SellerBlock where
  id : Option Int
  registration_year : Option Int
deriving Repr, DecidableEq

/-- An enriched result as the handler builds and then scores it. The
source leaves `score` undefined until the scoring loop runs and the sort
comparator reads `score || 0`, so `0` is a faithful initial value. -/
structure Result where
  price : ℚ
  free_shipping : Bool
  seller : SellerBlock
  score : ℤ
deriving Repr, DecidableEq

/-- Line 81 of the source: `free_shipping: item.shipping?.free_shipping
|| false` — `false` whenever the shipping block is absent, the flag is
absent, or the flag is `false`. -/
def free_shippingOf (item : RawItem) : Bool :=
  match item.shipping with
  | none => false
  | some s =>
    match s.free_shipping with
    | some b => b
    | none => false

/-- The `seller` field of an enriched result: full `SellerInfo` when the
lookup succeeded, else an object carrying only the raw seller id. -/
def sellerBlockOf (item : RawItem) (sellerInfo : Option SellerInfo) : SellerBlock :=
  match sellerInfo with
  | some s => { id := some s.id, registration_year := s.registration_year }
  | none => { id := item.sellerId, registration_year := none }

/-- Enrichment of one raw item with its (best-effort) seller lookup. -/
def enrich (item : RawItem) (sellerInfo : Option SellerInfo) : Result :=
  { price := item.price
    free_shipping := free_shippingOf item
    seller := sellerBlockOf item sellerInfo
    score := 0 }

/-- The batch price list `results.map(r => r.price || 0).filter(Boolean)`:
all truthy (nonzero) prices. -/
def batchPrices (rs : List Result) : List ℚ :=
  (rs.map Result.price).filter (fun q => q ≠ 0)

/-- The batch minimum `prices.length ? Math.min(...prices) : 0`. -/
def minPrice (rs : List Result) : ℚ :=
  match (batchPrices rs).min? with
  | some m => m
  | none => 0

/-- The batch maximum `prices.length ? Math.max(...prices) : minPrice || 1`
(in the empty branch `minPrice` is `0`, so the fallback is `1`). -/
def maxPrice (rs : List Result) : ℚ :=
  match (batchPrices rs).max? with
  | some m => m
  | none => if minPrice rs = 0 then 1 else minPrice rs

/-- JS `Math.round`: halves round towards positive infinity. -/
def jsRound (q : ℚ) : ℤ := ⌊q + 1 / 2⌋

/-- The price sub-score `maxPrice === minPrice ? 1 :
1 - ((p - minPrice) / (maxPrice - minPrice))`. -/
def scorePrice (minP maxP p : ℚ) : ℚ :=
  if maxP = minP then 1 else 1 - (p - minP) / (maxP - minP)

/-- The per-item substituted price `const p = r.price || maxPrice`. -/
def substPrice (maxP : ℚ) (r : Result) : ℚ :=
  if r.price = 0 then maxP else r.price

/-- The price sub-score of one result inside a batch with the given
computed minimum and maximum. -/
def priceScoreOf (minP maxP : ℚ) (r : Result) : ℚ :=
  scorePrice minP maxP (substPrice maxP r)

/-- The shipping sub-score `r.free_shipping ? 1 : 0.45`. -/
def scoreShipping (free : Bool) : ℚ :=
  if free then 1 else 0.45

/-- The seller sub-score: default `0.5`; with a registration date, age is
current year minus registration year and the score is
`Math.min(1, 0.4 + 0.06 * Math.min(age, 10))`. -/
def scoreSeller (currentYear : ℤ) (s : SellerBlock) : ℚ :=
  match s.registration_year with
  | none => 0.5
  | some y => min 1 (0.4 + 0.06 * min ((currentYear - y : ℤ) : ℚ) 10)

/-- The composite score of one result:
`Math.round((0.6*scorePrice + 0.2*scoreShipping + 0.2*scoreSeller) * 100)`. -/
def scoreOf (currentYear : ℤ) (minP maxP : ℚ) (r : Result) : ℤ :=
  jsRound ((0.6 * priceScoreOf minP maxP r +
    0.2 * scoreShipping r.free_shipping +
    0.2 * scoreSeller currentYear r.seller) * 100)

/-- The scoring loop (`results.forEach(r => { ... r.score = ... })`):
batch min and max are computed once, then every result's `score` field is
set in place. `currentYear` models `new Date().getFullYear()`. -/
def scoreAll (currentYear : ℤ) (rs : List Result) : List Result :=
  let minP := minPrice rs
  let maxP := maxPrice rs
  rs.map (fun r => { r with score := scoreOf currentYear minP maxP r })

/-- The sort comparator `(a, b) => (b.score || 0) - (a.score || 0)` as the
precedence test of a stable sort: `a` may stay before `b` iff the
comparator is nonpositive, i.e. `b.score ≤ a.score`. -/
def resultLE (a b : Result) : Bool :=
  decide (b.score ≤ a.score)

/-- `results.sort((a, b) => (b.score || 0) - (a.score || 0))`:
JS `Array.prototype.sort` is specified stable, so it is embedded as a
stable merge sort with `resultLE`. -/
def sortResults (rs : List Result) : List Result :=
  rs.mergeSort resultLE

/-- Steps 4 and 5 of the handler: score every enriched result, then sort
once, descending by score. -/
def scoreAndSort (currentYear : ℤ) (rs : List Result) : List Result :=
  sortResults (scoreAll currentYear rs)

/-- The fixed follow-up question text. -/
def repreguntaText : String :=
  "¿Quieres priorizar envío rápido aunque cueste un poco más?"

/-- Lines 115–116 of the source: the follow-up question is attached iff
`!criteria.latest_delivery_date` (JS falsiness) and some result has
`free_shipping === false`. -/
def repregunta (criteria : Criteria) (results : List Result) : Option String :=
  if !optTruthy criteria.latest_delivery_date &&
      results.any (fun r => r.free_shipping == false)
  then some repreguntaText else none

/-! ### Order helper lemmas for `List.min?` / `List.max?` over `ℚ` -/

/-- Antisymmetry of `≤` on `ℚ`, packaged for the core `min?`/`max?` API. -/
theorem rat_antisymm : Std.Antisymm ((· : ℚ) ≤ ·) :=
  ⟨fun h h' => le_antisymm h h'⟩

/-- A `min?` value is a lower bound of the list. -/
theorem min?_le_of_mem {l : List ℚ} {m a : ℚ} (h : l.min? = some m) (ha : a ∈ l) :
    m ≤ a :=
  (List.le_min?_iff (fun _ _ _ => le_min_iff) h).mp le_rfl a ha

/-- A `max?` value is an upper bound of the list. -/
theorem le_max?_of_mem {l : List ℚ} {M a : ℚ} (h : l.max? = some M) (ha : a ∈ l) :
    a ≤ M :=
  (List.max?_le_iff (fun _ _ _ => max_le_iff) h).mp le_rfl a ha

/-- A `min?` value is a member of the list. -/
theorem min?_mem_q {l : List ℚ} {m : ℚ} (h : l.min? = some m) : m ∈ l :=
  List.min?_mem (fun a b => min_choice a b) h

/-- A `max?` value is a member of the list. -/
theorem max?_mem_q {l : List ℚ} {M : ℚ} (h : l.max? = some M) : M ∈ l :=
  List.max?_mem (fun a b => max_choice a b) h

/-- `min?` is invariant under permutation. -/
theorem min?_perm {l₁ l₂ : List ℚ} (h : l₁.Perm l₂) : l₁.min? = l₂.min? := by
  haveI := rat_antisymm
  cases h1 : l₁.min? with
  | none =>
    rw [List.min?_eq_none_iff] at h1
    subst h1
    rw [List.min?_eq_none_iff.mpr h.symm.eq_nil]
  | some m =>
    symm
    rw [List.min?_eq_some_iff (fun a => le_refl a) (fun a b => min_choice a b)
      (fun _ _ _ => le_min_iff)] at h1 ⊢
    exact ⟨h.mem_iff.mp h1.1, fun b hb => h1.2 b (h.mem_iff.mpr hb)⟩

/-- `max?` is invariant under permutation. -/
theorem max?_perm {l₁ l₂ : List ℚ} (h : l₁.Perm l₂) : l₁.max? = l₂.max? := by
  haveI := rat_antisymm
  cases h1 : l₁.max? with
  | none =>
    rw [List.max?_eq_none_iff] at h1
    subst h1
    rw [List.max?_eq_none_iff.mpr h.symm.eq_nil]
  | some m =>
    symm
    rw [List.max?_eq_some_iff (fun a => le_refl a) (fun a b => max_choice a b)
      (fun _ _ _ => max_le_iff)] at h1 ⊢
    exact ⟨h.mem_iff.mp h1.1, fun b hb => h1.2 b (h.mem_iff.mpr hb)⟩

/-! ### Facts about the batch price normalisation -/

/-- A truthy (nonzero) price of a batch member occurs in `batchPrices`. -/
theorem mem_batchPrices {rs : List Result} {r : Result} (hr : r ∈ rs)
    (h0 : r.price ≠ 0) : r.price ∈ batchPrices rs := by
  simp only [batchPrices, List.mem_filter, List.mem_map, decide_eq_true_eq]
  exact ⟨⟨r, hr, rfl⟩, h0⟩

/-- The computed batch minimum is below every truthy member price. -/
theorem minPrice_le {rs : List Result} {r : Result} (hr : r ∈ rs)
    (h0 : r.price ≠ 0) : minPrice rs ≤ r.price := by
  unfold minPrice
  cases h : (batchPrices rs).min? with
  | none =>
    rw [List.min?_eq_none_iff] at h
    exact absurd (h ▸ mem_batchPrices hr h0) (List.not_mem_nil _)
  | some m => exact min?_le_of_mem h (mem_batchPrices hr h0)

/-- The computed batch maximum is above every truthy member price. -/
theorem le_maxPrice {rs : List Result} {r : Result} (hr : r ∈ rs)
    (h0 : r.price ≠ 0) : r.price ≤ maxPrice rs := by
  unfold maxPrice
  cases h : (batchPrices rs).max? with
  | none =>
    rw [List.max?_eq_none_iff] at h
    exact absurd (h ▸ mem_batchPrices hr h0) (List.not_mem_nil _)
  | some M => exact le_max?_of_mem h (mem_batchPrices hr h0)

/-- The computed batch minimum never exceeds the computed batch maximum
(including the degenerate empty-price-list branch `0 ≤ 1`). -/
theorem minPrice_le_maxPrice (rs : List Result) : minPrice rs ≤ maxPrice rs := by
  unfold minPrice maxPrice
  cases h : (batchPrices rs).min? with
  | none =>
    rw [List.min?_eq_none_iff] at h
    rw [List.max?_eq_none_iff.mpr h]
    norm_num [minPrice, List.min?_eq_none_iff.mpr h]
  | some m =>
    cases h2 : (batchPrices rs).max? with
    | none =>
      rw [List.max?_eq_none_iff] at h2
      rw [h2] at h
      simp at h
    | some M => exact le_max?_of_mem h2 (min?_mem_q h)

/-- The substituted per-item price `r.price || maxPrice` always lies
between the computed batch minimum and maximum. -/
theorem substPrice_bounds {rs : List Result} {r : Result} (hr : r ∈ rs) :
    minPrice rs ≤ substPrice (maxPrice rs) r ∧
      substPrice (maxPrice rs) r ≤ maxPrice rs := by
  unfold substPrice
  by_cases h0 : r.price = 0
  · simp only [h0, if_pos rfl]
    exact ⟨minPrice_le_maxPrice rs, le_rfl⟩
  · simp only [if_neg h0]
    exact ⟨minPrice_le hr h0, le_maxPrice hr h0⟩


/-! ### Bounds of the sub-scores and the composite score -/

/-- The price sub-score lies in `[0, 1]` whenever the scored price lies
between the batch minimum and maximum. -/
theorem scorePrice_bounds {minP maxP p : ℚ} (hmm : minP ≤ maxP)
    (h1 : minP ≤ p) (h2 : p ≤ maxP) :
    0 ≤ scorePrice minP maxP p ∧ scorePrice minP maxP p ≤ 1 := by
  unfold scorePrice
  split
  · norm_num
  · rename_i hne
    have hlt : minP < maxP := lt_of_le_of_ne hmm (fun h => hne h.symm)
    have hd : (0:ℚ) < maxP - minP := by linarith
    have hub : (p - minP) / (maxP - minP) ≤ 1 := by
      rw [div_le_one hd]
      linarith
    have hlb : 0 ≤ (p - minP) / (maxP - minP) := div_nonneg (by linarith) (le_of_lt hd)
    constructor <;> linarith

/-- The shipping sub-score (`1` or `0.45`) lies in `[0, 1]`. -/
theorem scoreShipping_bounds (b : Bool) :
    0 ≤ scoreShipping b ∧ scoreShipping b ≤ 1 := by
  cases b <;> norm_num [scoreShipping]

/-- The seller sub-score lies in `[0, 1]` provided the registration year
(when known) does not lie in the future of the current year. -/
theorem scoreSeller_bounds {cy : ℤ} {s : SellerBlock}
    (h : ∀ y, s.registration_year = some y → y ≤ cy) :
    0 ≤ scoreSeller cy s ∧ scoreSeller cy s ≤ 1 := by
  unfold scoreSeller
  cases hy : s.registration_year with
  | none => norm_num
  | some y =>
    have hyc : y ≤ cy := h y hy
    have hage : (0:ℚ) ≤ ((cy - y : ℤ) : ℚ) := by
      exact_mod_cast Int.sub_nonneg.mpr hyc
    refine ⟨le_min (by norm_num) ?_, min_le_left _ _⟩
    have : (0:ℚ) ≤ min ((cy - y : ℤ) : ℚ) 10 := le_min hage (by norm_num)
    linarith

/-- `Math.round` maps `[0, 100]` into the integers `0..100`. -/
theorem jsRound_bounds {q : ℚ} (h0 : 0 ≤ q) (h1 : q ≤ 100) :
    0 ≤ jsRound q ∧ jsRound q ≤ 100 := by
  unfold jsRound
  constructor
  · exact Int.floor_nonneg.mpr (by linarith)
  · have : ⌊q + 1 / 2⌋ < 101 := by
      rw [Int.floor_lt]
      push_cast
      linarith
    omega

/-- The composite score of a batch member is in `[0, 100]` whenever its
seller registration year (when known) is at most the current year. -/
theorem scoreOf_bounds {y : ℤ} {rs : List Result} {r : Result} (hr : r ∈ rs)
    (hsel : ∀ ry, r.seller.registration_year = some ry → ry ≤ y) :
    0 ≤ scoreOf y (minPrice rs) (maxPrice rs) r ∧
      scoreOf y (minPrice rs) (maxPrice rs) r ≤ 100 := by
  obtain ⟨hp1, hp2⟩ := substPrice_bounds hr
  obtain ⟨hq1, hq2⟩ := scorePrice_bounds (minPrice_le_maxPrice rs) hp1 hp2
  obtain ⟨hs1, hs2⟩ := scoreShipping_bounds r.free_shipping
  obtain ⟨ht1, ht2⟩ := scoreSeller_bounds hsel
  unfold scoreOf
  apply jsRound_bounds
  · unfold priceScoreOf at *
    nlinarith
  · unfold priceScoreOf at *
    nlinarith


/-! ### Sorting infrastructure -/

/-- `resultLE` is transitive. -/
theorem resultLE_trans : ∀ (a b c : Result),
    resultLE a b → resultLE b c → resultLE a c := by
  intro a b c hab hbc
  simp only [resultLE, decide_eq_true_eq] at *
  omega

/-- `resultLE` is total. -/
theorem resultLE_total : ∀ (a b : Result), resultLE a b || resultLE b a := by
  intro a b
  simp only [resultLE, Bool.or_eq_true, decide_eq_true_eq]
  omega

/-- The sorted result list is pairwise descending by score. -/
theorem sortResults_pairwise (l : List Result) :
    (sortResults l).Pairwise (fun a b => b.score ≤ a.score) := by
  have h := List.sorted_mergeSort resultLE_trans resultLE_total l
  exact h.imp (fun hab => by simpa [resultLE] using hab)

/-- Sorting permutes the result list. -/
theorem sortResults_perm (l : List Result) : (sortResults l).Perm l :=
  List.mergeSort_perm l resultLE

/-- Stability of the sort: the results carrying any fixed score appear in
the output in exactly their input order. -/
theorem sortResults_filter_score (s : ℤ) (l : List Result) :
    (sortResults l).filter (fun r => r.score == s) =
      l.filter (fun r => r.score == s) := by
  have hsub : List.Sublist (l.filter (fun r => r.score == s)) l := List.filter_sublist l
  have hpw : (l.filter (fun r => r.score == s)).Pairwise
      (fun a b => resultLE a b = true) := by
    apply List.pairwise_of_forall_mem_list
    intro a ha b hb
    have ha' := (List.mem_filter.mp ha).2
    have hb' := (List.mem_filter.mp hb).2
    simp only [beq_iff_eq] at ha' hb'
    simp [resultLE, ha', hb']
  have h1 : List.Sublist (l.filter (fun r => r.score == s)) (sortResults l) :=
    List.sublist_mergeSort resultLE_trans resultLE_total hpw hsub
  have h2 : (l.filter (fun r => r.score == s)).filter (fun r => r.score == s)
      = l.filter (fun r => r.score == s) :=
    List.filter_eq_self.mpr (fun a ha => (List.mem_filter.mp ha).2)
  have h3 : List.Sublist (l.filter (fun r => r.score == s))
      ((sortResults l).filter (fun r => r.score == s)) := by
    have := h1.filter (fun r => r.score == s)
    rwa [h2] at this
  have h4 : ((sortResults l).filter (fun r => r.score == s)).Perm
      (l.filter (fun r => r.score == s)) :=
    (sortResults_perm l).filter _
  exact (h3.eq_of_length h4.length_eq.symm).symm

/-! ### Permutation invariance of the batch statistics; rescoring -/

/-- `batchPrices` maps permutations to permutations. -/
theorem batchPrices_perm {l₁ l₂ : List Result} (h : l₁.Perm l₂) :
    (batchPrices l₁).Perm (batchPrices l₂) :=
  (h.map Result.price).filter _

/-- `minPrice` only depends on the batch price multiset. -/
theorem minPrice_congr {l₁ l₂ : List Result}
    (h : (batchPrices l₁).Perm (batchPrices l₂)) : minPrice l₁ = minPrice l₂ := by
  unfold minPrice
  rw [min?_perm h]

/-- `maxPrice` only depends on the batch price multiset. -/
theorem maxPrice_congr {l₁ l₂ : List Result}
    (h : (batchPrices l₁).Perm (batchPrices l₂)) : maxPrice l₁ = maxPrice l₂ := by
  unfold maxPrice
  rw [max?_perm h, minPrice_congr h]

/-- Setting scores does not change the batch price list. -/
theorem batchPrices_scoreAll (y : ℤ) (rs : List Result) :
    batchPrices (scoreAll y rs) = batchPrices rs := by
  unfold batchPrices scoreAll
  rw [List.map_map]
  rfl

/-- Rescoring is the identity on a batch whose members already carry the
scores computed from the same batch statistics. -/
theorem scoreAll_fix (y : ℤ) (rs : List Result) {zs : List Result}
    (hmin : minPrice zs = minPrice rs) (hmax : maxPrice zs = maxPrice rs)
    (hmem : ∀ r ∈ zs, ∃ r0 : Result,
      r = { r0 with score := scoreOf y (minPrice rs) (maxPrice rs) r0 }) :
    scoreAll y zs = zs := by
  simp only [scoreAll, hmin, hmax]
  have hfix : ∀ r ∈ zs,
      ({ r with score := scoreOf y (minPrice rs) (maxPrice rs) r } : Result) = r := by
    intro r hr
    obtain ⟨r0, rfl⟩ := hmem r hr
    rfl
  rw [List.map_congr_left hfix, List.map_id']

/-- Rescoring a sorted, already-scored batch changes nothing. -/
theorem scoreAll_of_sorted_scored (y : ℤ) (rs : List Result) :
    scoreAll y (sortResults (scoreAll y rs)) = sortResults (scoreAll y rs) := by
  have hperm : (sortResults (scoreAll y rs)).Perm (scoreAll y rs) :=
    List.mergeSort_perm _ resultLE
  have hbp : (batchPrices (sortResults (scoreAll y rs))).Perm (batchPrices rs) := by
    rw [← batchPrices_scoreAll y rs]
    exact batchPrices_perm hperm
  apply scoreAll_fix y rs
  · exact minPrice_congr hbp
  · exact maxPrice_congr hbp
  · intro r hr
    have hmem : r ∈ scoreAll y rs := hperm.mem_iff.mp hr
    simp only [scoreAll, List.mem_map] at hmem
    obtain ⟨r0, _, rfl⟩ := hmem
    exact ⟨r0, rfl⟩


/-! ### Claim theorems -/

/-- C1: when the language-model credential is configured and the OpenAI
call or the parse of its reply fails (a thrown error), the handler falls
back to the heuristic parser; extraction always yields a criteria object
(`extract` is total), so the extraction step never fails the request. -/
theorem extract_error_falls_back_to_heuristic (e isoPlus7 prompt : String) :
    extract true (Except.error e) isoPlus7 prompt = heuristicParse isoPlus7 prompt := by
  simp [extract]

/-- C2 (counterexample): with a seller registration date in the future of
the current year (here 2041 against current year 2026) the seller
sub-score goes negative and the composite score of the second result is
`-1`, outside `[0, 100]` — the claim fails for arbitrary registration
dates. -/
theorem scoreAll_score_negative_counterexample :
    ((scoreAll 2026
      [{ price := 100, free_shipping := true,
         seller := { id := none, registration_year := none }, score := 0 },
       { price := 200, free_shipping := false,
         seller := { id := some 1, registration_year := some 2041 }, score := 0 }]).map
      Result.score) = [90, -1] ∧ ¬(0 ≤ (-1 : ℤ)) := by
  constructor
  · norm_num [scoreAll, scoreOf, priceScoreOf, scorePrice, substPrice,
      scoreShipping, scoreSeller, jsRound, minPrice, maxPrice, batchPrices,
      List.filter_cons, List.min?, List.max?, min_def, max_def]
  · norm_num

/-- C2 (amended): for every batch of enriched results whose sellers'
registration years (when known) do not lie in the future of the current
year, every computed `score` is an integer in `[0, 100]`. -/
theorem scoreAll_scores_in_range (y : ℤ) (rs : List Result)
    (h : ∀ r ∈ rs, ∀ ry, r.seller.registration_year = some ry → ry ≤ y) :
    ∀ s ∈ (scoreAll y rs).map Result.score, 0 ≤ s ∧ s ≤ 100 := by
  intro s hs
  simp only [scoreAll, List.map_map, List.mem_map, Function.comp] at hs
  obtain ⟨r, hr, rfl⟩ := hs
  exact scoreOf_bounds hr (h r hr)

/-- C2 (witness): the range theorem applied to a concrete one-result
batch whose seller registered in 2020, current year 2026. -/
theorem scoreAll_scores_in_range_witness : 0 ≤ (95:ℤ) ∧ (95:ℤ) ≤ 100 :=
  scoreAll_scores_in_range 2026
    [{ price := 100, free_shipping := true,
       seller := { id := some 1, registration_year := some 2020 }, score := 0 }]
    (by norm_num)
    95
    (by norm_num [scoreAll, scoreOf, priceScoreOf, scorePrice, substPrice,
      scoreShipping, scoreSeller, jsRound, minPrice, maxPrice, batchPrices,
      List.filter_cons, List.min?, List.max?, min_def, max_def])

/-- C3 (counterexample): the prompt "notebook barata hasta $300" yields a
price priority weight of `0.4`, not the claimed `0.7`, because the source
checks `includes('barato')` and the prompt contains the feminine form
"barata" only. -/
theorem heuristicParse_notebook_barata_price_counterexample :
    (heuristicParse "2026-10-18" "notebook barata hasta $300").priority_weights.price
      = 0.4 ∧ (0.4 : ℚ) ≠ 0.7 := by
  constructor
  · have h : (strIncludes (jsLowerStr "notebook barata hasta $300") "barato" ||
        strIncludes (jsLowerStr "notebook barata hasta $300") "lo mas barato") = false := by
      decide
    simp [heuristicParse, h]
  · norm_num

/-- C3 (amended): for any ambient date, the heuristic parse of
"notebook barata hasta $300" yields category "notebook", budget_max 300,
and price priority weight `0.4` (the word "barato" does not occur, so the
cheap-raise to `0.7` does not fire). -/
theorem heuristicParse_notebook_barata (d : String) :
    (heuristicParse d "notebook barata hasta $300").category = some "notebook" ∧
    (heuristicParse d "notebook barata hasta $300").budget_max = some 300 ∧
    (heuristicParse d "notebook barata hasta $300").priority_weights.price = 0.4 := by
  have h : (strIncludes (jsLowerStr "notebook barata hasta $300") "barato" ||
      strIncludes (jsLowerStr "notebook barata hasta $300") "lo mas barato") = false := by
    decide
  refine ⟨?_, ?_, ?_⟩
  · simp only [heuristicParse]
    decide
  · simp only [heuristicParse]
    decide
  · simp [heuristicParse, h]

/-- C4 (counterexample): for the prompt "hola" the heuristic parser
returns `keywords = null` (the source computes `keywords.trim() || null`,
and the trimmed keywords string is empty, hence falsy), not the claimed
empty string. -/
theorem heuristicParse_hola_keywords_counterexample :
    (heuristicParse "2026-10-18" "hola").keywords = none ∧
    (none : Option String) ≠ some "" :=
  ⟨by decide, by simp⟩

/-- C4 (amended): the heuristic extractor is a total function into
well-formed `Criteria` (by construction), and for the pattern-free prompt
"hola" it returns category null, budget_max null, keywords null (not the
empty string), no delivery date, and the verbatim prompt as
`extra_instructions`. -/
theorem heuristicParse_hola (d : String) :
    (heuristicParse d "hola").category = none ∧
    (heuristicParse d "hola").budget_max = none ∧
    (heuristicParse d "hola").keywords = none ∧
    (heuristicParse d "hola").latest_delivery_date = none ∧
    (heuristicParse d "hola").extra_instructions = "hola" := by
  have h : (strIncludes (jsLowerStr "hola") "semana" ||
      strIncludes (jsLowerStr "hola") "una semana" ||
      strIncludes (jsLowerStr "hola") "dentro de una semana") = false := by
    decide
  refine ⟨?_, ?_, ?_, ?_, ?_⟩
  · simp only [heuristicParse]
    decide
  · simp only [heuristicParse]
    decide
  · simp only [heuristicParse]
    decide
  · simp [heuristicParse, h]
  · simp [heuristicParse]

/-- C5 (counterexample): the scorer reads the ambient clock
(`new Date().getFullYear()`): for identical item and seller inputs with a
2020 registration date, a run with current year 2025 scores `94` while a
run with current year 2026 scores `95`, so the output is not a function
of items and sellers alone. -/
theorem scoreAll_depends_on_current_year_counterexample :
    (scoreAll 2025
      [{ price := 100, free_shipping := true,
         seller := { id := some 1, registration_year := some 2020 }, score := 0 }]).map
      Result.score = [94] ∧
    (scoreAll 2026
      [{ price := 100, free_shipping := true,
         seller := { id := some 1, registration_year := some 2020 }, score := 0 }]).map
      Result.score = [95] ∧
    scoreAll 2025
      [{ price := 100, free_shipping := true,
         seller := { id := some 1, registration_year := some 2020 }, score := 0 }] ≠
    scoreAll 2026
      [{ price := 100, free_shipping := true,
         seller := { id := some 1, registration_year := some 2020 }, score := 0 }] := by
  have h1 : (scoreAll 2025
      [{ price := 100, free_shipping := true,
         seller := { id := some 1, registration_year := some 2020 }, score := 0 }]).map
      Result.score = [94] := by
    norm_num [scoreAll, scoreOf, priceScoreOf, scorePrice, substPrice,
      scoreShipping, scoreSeller, jsRound, minPrice, maxPrice, batchPrices,
      List.filter_cons, List.min?, List.max?, min_def, max_def]
  have h2 : (scoreAll 2026
      [{ price := 100, free_shipping := true,
         seller := { id := some 1, registration_year := some 2020 }, score := 0 }]).map
      Result.score = [95] := by
    norm_num [scoreAll, scoreOf, priceScoreOf, scorePrice, substPrice,
      scoreShipping, scoreSeller, jsRound, minPrice, maxPrice, batchPrices,
      List.filter_cons, List.min?, List.max?, min_def, max_def]
  refine ⟨h1, h2, fun h => ?_⟩
  have h3 := congrArg (List.map Result.score) h
  rw [h1, h2] at h3
  simp at h3

/-- C5 (amended): the scorer is deterministic in its inputs together with
the current year read from the ambient clock; in particular, when no
seller carries a registration date the output does not depend on the
clock at all. -/
theorem scoreAll_year_independent_without_registration (y₁ y₂ : ℤ)
    (rs : List Result) (h : ∀ r ∈ rs, r.seller.registration_year = none) :
    scoreAll y₁ rs = scoreAll y₂ rs := by
  unfold scoreAll
  apply List.map_congr_left
  intro r hr
  simp only [scoreOf, scoreSeller, h r hr]

/-- C5 (witness): the year-independence theorem at a concrete batch with
no registration dates, years 2025 and 2026. -/
theorem scoreAll_year_independent_without_registration_witness :
    scoreAll 2025
      [{ price := 100, free_shipping := true,
         seller := { id := none, registration_year := none }, score := 0 }] =
    scoreAll 2026
      [{ price := 100, free_shipping := true,
         seller := { id := none, registration_year := none }, score := 0 }] :=
  scoreAll_year_independent_without_registration 2025 2026 _ (by norm_num)

/-- C6 (counterexample): a single result with a falsy (zero) price gets
price component `0`, not `1`: the zero price is excluded from the batch
price list, so `minPrice = 0`, `maxPrice = 1`, the item is scored with
`maxPrice` substituted for its price, and `1 - (1-0)/(1-0) = 0`. -/
theorem priceScore_zero_price_counterexample :
    priceScoreOf
      (minPrice
        [{ price := 0, free_shipping := false,
           seller := { id := none, registration_year := none }, score := 0 }])
      (maxPrice
        [{ price := 0, free_shipping := false,
           seller := { id := none, registration_year := none }, score := 0 }])
      { price := 0, free_shipping := false,
        seller := { id := none, registration_year := none }, score := 0 } = 0 ∧
      (0 : ℚ) ≠ 1 := by
  constructor
  · norm_num [priceScoreOf, scorePrice, substPrice, minPrice, maxPrice,
      batchPrices, List.filter_cons, List.min?, List.max?, min_def, max_def]
  · norm_num

/-- C6 (amended): for a batch in which every result has a truthy
(nonzero) price: if the batch maximum equals the batch minimum (single
result or all prices equal) every price component is exactly `1` with no
division by zero; otherwise each item's price component equals
`1 - (price - min)/(max - min)` and lies in `[0, 1]`; and a strictly
cheaper item always has a strictly higher price component. -/
theorem priceScore_nonzero_batch_spec (rs : List Result)
    (h : ∀ r ∈ rs, r.price ≠ 0) :
    (maxPrice rs = minPrice rs →
      ∀ r ∈ rs, priceScoreOf (minPrice rs) (maxPrice rs) r = 1) ∧
    (maxPrice rs ≠ minPrice rs →
      ∀ r ∈ rs,
        priceScoreOf (minPrice rs) (maxPrice rs) r
            = 1 - (r.price - minPrice rs) / (maxPrice rs - minPrice rs) ∧
          0 ≤ priceScoreOf (minPrice rs) (maxPrice rs) r ∧
          priceScoreOf (minPrice rs) (maxPrice rs) r ≤ 1) ∧
    (∀ r₁ ∈ rs, ∀ r₂ ∈ rs, r₁.price < r₂.price →
      priceScoreOf (minPrice rs) (maxPrice rs) r₂ <
        priceScoreOf (minPrice rs) (maxPrice rs) r₁) := by
  have formula : ∀ r ∈ rs, maxPrice rs ≠ minPrice rs →
      priceScoreOf (minPrice rs) (maxPrice rs) r
        = 1 - (r.price - minPrice rs) / (maxPrice rs - minPrice rs) := by
    intro r hr hne
    unfold priceScoreOf scorePrice substPrice
    rw [if_neg (h r hr), if_neg hne]
  refine ⟨?_, ?_, ?_⟩
  · intro he r hr
    simp [priceScoreOf, scorePrice, he]
  · intro hne r hr
    have hb1 := minPrice_le hr (h r hr)
    have hb2 := le_maxPrice hr (h r hr)
    have hsub : substPrice (maxPrice rs) r = r.price := if_neg (h r hr)
    have hsp : priceScoreOf (minPrice rs) (maxPrice rs) r
        = scorePrice (minPrice rs) (maxPrice rs) r.price := by
      unfold priceScoreOf
      rw [hsub]
    obtain ⟨hl, hu⟩ := scorePrice_bounds (minPrice_le_maxPrice rs) hb1 hb2
    exact ⟨formula r hr hne, by rw [hsp]; exact hl, by rw [hsp]; exact hu⟩
  · intro r₁ h1 r₂ h2 hlt
    have hba : minPrice rs ≤ r₁.price := minPrice_le h1 (h r₁ h1)
    have hbb : r₂.price ≤ maxPrice rs := le_maxPrice h2 (h r₂ h2)
    have hmm : minPrice rs < maxPrice rs :=
      lt_of_le_of_lt hba (lt_of_lt_of_le hlt hbb)
    have hne : maxPrice rs ≠ minPrice rs := ne_of_gt hmm
    rw [formula r₁ h1 hne, formula r₂ h2 hne]
    have hd : (0:ℚ) < maxPrice rs - minPrice rs := by linarith
    have hdiv : (r₁.price - minPrice rs) / (maxPrice rs - minPrice rs) <
        (r₂.price - minPrice rs) / (maxPrice rs - minPrice rs) :=
      (div_lt_div_iff_of_pos_right hd).mpr (by linarith)
    linarith

/-- C6 (witness): the price-component theorem applied to the concrete
batch with prices 100 and 200 — the cheaper item gets the strictly
higher price component. -/
theorem priceScore_nonzero_batch_spec_witness :
    priceScoreOf
        (minPrice
          [{ price := 200, free_shipping := false,
             seller := { id := none, registration_year := none }, score := 0 },
           { price := 100, free_shipping := true,
             seller := { id := none, registration_year := none }, score := 0 }])
        (maxPrice
          [{ price := 200, free_shipping := false,
             seller := { id := none, registration_year := none }, score := 0 },
           { price := 100, free_shipping := true,
             seller := { id := none, registration_year := none }, score := 0 }])
        { price := 200, free_shipping := false,
          seller := { id := none, registration_year := none }, score := 0 } <
      priceScoreOf
        (minPrice
          [{ price := 200, free_shipping := false,
             seller := { id := none, registration_year := none }, score := 0 },
           { price := 100, free_shipping := true,
             seller := { id := none, registration_year := none }, score := 0 }])
        (maxPrice
          [{ price := 200, free_shipping := false,
             seller := { id := none, registration_year := none }, score := 0 },
           { price := 100, free_shipping := true,
             seller := { id := none, registration_year := none }, score := 0 }])
        { price := 100, free_shipping := true,
          seller := { id := none, registration_year := none }, score := 0 } :=
  (priceScore_nonzero_batch_spec _ (by norm_num)).2.2
    { price := 100, free_shipping := true,
      seller := { id := none, registration_year := none }, score := 0 }
    (by norm_num)
    { price := 200, free_shipping := false,
      seller := { id := none, registration_year := none }, score := 0 }
    (by norm_num)
    (by norm_num)

/-- C7: the response's result list is the scored list sorted exactly once
after all scores are computed: it is pairwise descending by `score`, it is
a permutation of the scored list, and ties keep their prior relative
order (for every score value, filtering the output by that score yields
exactly the input order). -/
theorem scoreAndSort_sorted_perm_stable (y : ℤ) (rs : List Result) :
    (scoreAndSort y rs).Pairwise (fun a b => b.score ≤ a.score) ∧
    (scoreAndSort y rs).Perm (scoreAll y rs) ∧
    ∀ s : ℤ, (scoreAndSort y rs).filter (fun r => r.score == s) =
      (scoreAll y rs).filter (fun r => r.score == s) :=
  ⟨sortResults_pairwise _, sortResults_perm _, fun s => sortResults_filter_score s _⟩

/-- C8 (counterexample): a criteria whose `latest_delivery_date` is the
empty string — non-null, but JS-falsy — still triggers the follow-up
question when a result lacks free shipping, contradicting "null whenever
`latest_delivery_date` is non-null". -/
theorem repregunta_empty_date_counterexample :
    repregunta
      { keywords := none, category := none, must_have := [], nice_to_have := [],
        avoid := [], budget_min := none, budget_max := none,
        latest_delivery_date := some "", condition_preference := none,
        priority_weights :=
          { price := 0.4, delivery_time := 0.15, reviews := 0.1,
            seller_reputation := 0.05 },
        extra_instructions := "" }
      [{ price := 100, free_shipping := false,
         seller := { id := none, registration_year := none }, score := 0 }] =
      some repreguntaText ∧
    some repreguntaText ≠ (none : Option String) := by
  constructor
  · rfl
  · simp

/-- C8 (amended): the follow-up question is the fixed string exactly when
`latest_delivery_date` is JS-falsy (null or the empty string) and at
least one result has `free_shipping = false`, and is null in every other
case — in particular whenever `latest_delivery_date` is a non-empty
string, regardless of shipping flags. -/
theorem repregunta_iff_falsy_date_and_paid_shipping (c : Criteria)
    (rs : List Result) :
    (repregunta c rs = some repreguntaText ↔
      ((c.latest_delivery_date = none ∨ c.latest_delivery_date = some "") ∧
        ∃ r ∈ rs, r.free_shipping = false)) ∧
    (repregunta c rs = none ↔
      ¬((c.latest_delivery_date = none ∨ c.latest_delivery_date = some "") ∧
        ∃ r ∈ rs, r.free_shipping = false)) := by
  have key : (!optTruthy c.latest_delivery_date &&
      rs.any fun r => r.free_shipping == false) = true ↔
      ((c.latest_delivery_date = none ∨ c.latest_delivery_date = some "") ∧
        ∃ r ∈ rs, r.free_shipping = false) := by
    cases h : c.latest_delivery_date with
    | none => simp [optTruthy, List.any_eq_true]
    | some s => simp [optTruthy, List.any_eq_true]
  unfold repregunta
  split
  · rename_i h
    refine ⟨iff_of_true rfl (key.mp h), ?_⟩
    constructor
    · intro hn
      exact absurd hn (by simp)
    · intro hn
      exact absurd (key.mp h) hn
  · rename_i h
    have hk : ¬((c.latest_delivery_date = none ∨ c.latest_delivery_date = some "") ∧
        ∃ r ∈ rs, r.free_shipping = false) := fun hx => h (key.mpr hx)
    constructor
    · constructor
      · intro h0
        exact absurd h0 (by simp)
      · intro hx
        exact absurd hx hk
    · exact iff_of_true rfl hk

/-- C9: the scoring-and-sorting step is idempotent — applying it a second
time to an already-scored, sorted, unmodified result set (in the same
current year) reproduces identical scores and an identical order. -/
theorem scoreAndSort_idempotent (y : ℤ) (rs : List Result) :
    scoreAndSort y (scoreAndSort y rs) = scoreAndSort y rs := by
  show sortResults (scoreAll y (sortResults (scoreAll y rs))) = _
  rw [scoreAll_of_sorted_scored]
  exact List.mergeSort_of_sorted
    (List.sorted_mergeSort resultLE_trans resultLE_total (scoreAll y rs))

/-- C10: the enriched result's `free_shipping` field is always a boolean
(its type), and it is `false` exactly when the raw item has no shipping
block, or the block's free-shipping flag is absent or not `true`. -/
theorem enrich_free_shipping_boolean (item : RawItem) (si : Option SellerInfo) :
    (enrich item si).free_shipping = free_shippingOf item ∧
    (free_shippingOf item = false ↔
      (item.shipping = none ∨
        ∃ s, item.shipping = some s ∧ s.free_shipping ≠ some true)) := by
  refine ⟨rfl, ?_⟩
  unfold free_shippingOf
  cases h : item.shipping with
  | none => simp
  | some s =>
    cases hf : s.free_shipping with
    | none => simp [hf]
    | some b => cases b <;> simp [hf]


end MLSearch
